import Mathlib

/-!
Verification development for the diagnostic evaluation engine
(`diagnostic_utils.py`): a shallow embedding of the value codec,
the DTC rule matcher and the diagnostic response classifier,
together with theorems about the spec's claims.

Strings are modelled as lists of characters wrapped in `String`;
Python exceptions are modelled with `Except String`; numeric values
are modelled as `Nat` (DTC codes and status bytes are nonnegative),
except the `ln(N)` response-length parameter which is an `Int`
because Python's `int()` accepts a sign there.
-/

deriving instance DecidableEq for Except

namespace DiagUtils

/-! ## Character and string utilities (Python `str.strip`, `str.lower`) -/

/-- Whitespace characters removed by Python `str.strip()`. -/
def isPySpace (c : Char) : Bool :=
  c = ' ' || c = '\t' || c = '\n' || c = '\r' || c = '\x0b' || c = '\x0c'

/-- ASCII lower-casing, as Python `str.lower()` acts on ASCII input. -/
def pyToLower (c : Char) : Char :=
  if 'A' ≤ c && c ≤ 'Z' then Char.ofNat (c.toNat + 32) else c

/-- Python `str.strip()`: drop leading and trailing whitespace. -/
def listStrip (cs : List Char) : List Char :=
  ((cs.dropWhile isPySpace).reverse.dropWhile isPySpace).reverse

/-- Python `str.lower()` on a character list. -/
def listLower (cs : List Char) : List Char := cs.map pyToLower

/-- `value.strip().lower()` as used throughout the source. -/
def lowerStrip (s : String) : List Char := listLower (listStrip s.data)

/-- Python `str.zfill`-style left zero padding to width `w`. -/
def padZeros (cs : List Char) (w : Nat) : List Char :=
  List.replicate (w - cs.length) '0' ++ cs

/-! ## Digit classification and Python `int(s, base)` parsers -/

def decDigitVal (c : Char) : Option Nat :=
  let n := c.toNat
  if 48 ≤ n ∧ n ≤ 57 then some (n - 48) else none

def hexDigitVal (c : Char) : Option Nat :=
  let n := c.toNat
  if 48 ≤ n ∧ n ≤ 57 then some (n - 48)
  else if 97 ≤ n ∧ n ≤ 102 then some (n - 87)
  else if 65 ≤ n ∧ n ≤ 70 then some (n - 55)
  else none

def binDigitVal (c : Char) : Option Nat :=
  if c = '0' then some 0 else if c = '1' then some 1 else none

/-- Accumulate the value of a digit string in the given base;
`none` as soon as a character is not a digit of the base. -/
def digitsValAux (dv : Char → Option Nat) (base : Nat) :
    List Char → Nat → Option Nat
  | [], acc => some acc
  | c :: cs, acc =>
    match dv c with
    | some d => digitsValAux dv base cs (acc * base + d)
    | none => none

/-- Drop a leading `0x`/`0X` as Python `int(s, 16)` does. -/
def drop0xHead (cs : List Char) : List Char :=
  if 2 ≤ cs.length ∧ cs[0]? = some '0' ∧ (cs[1]? = some 'x' ∨ cs[1]? = some 'X')
  then cs.drop 2 else cs

/-- Drop a leading `0b`/`0B` as Python `int(s, 2)` does. -/
def drop0bHead (cs : List Char) : List Char :=
  if 2 ≤ cs.length ∧ cs[0]? = some '0' ∧ (cs[1]? = some 'b' ∨ cs[1]? = some 'B')
  then cs.drop 2 else cs

/-- Python `int(s, 16)` for nonnegative input: strip whitespace,
allow an optional `0x` prefix, then hex digits. -/
def pyIntHex (cs : List Char) : Option Nat :=
  let cs := drop0xHead (listStrip cs)
  if cs.isEmpty then none else digitsValAux hexDigitVal 16 cs 0

/-- Python `int(s, 2)` for nonnegative input. -/
def pyIntBin (cs : List Char) : Option Nat :=
  let cs := drop0bHead (listStrip cs)
  if cs.isEmpty then none else digitsValAux binDigitVal 2 cs 0

/-- Python `int(s)` (decimal) for nonnegative input. -/
def pyIntDec (cs : List Char) : Option Nat :=
  let cs := listStrip cs
  if cs.isEmpty then none else digitsValAux decDigitVal 10 cs 0

/-- Python `int(s)` (decimal) with an optional sign, returning an `Int`. -/
def pyIntDecSigned (cs : List Char) : Option Int :=
  let cs := listStrip cs
  match cs with
  | '-' :: rest => (pyIntDec rest).map (fun n => -(n : Int))
  | '+' :: rest => (pyIntDec rest).map (fun n => (n : Int))
  | _ => (pyIntDec cs).map (fun n => (n : Int))

/-- Remove `_` separators, as the source's `.replace("_", "")`. -/
def dropUnderscores (cs : List Char) : List Char := cs.filter (fun c => c ≠ '_')

/-! ## Integer-to-string formatting (Python `f"{n:x}"`, `bin(n)`) -/

def hexDigitChar (d : Nat) : Char :=
  Char.ofNat (if d < 10 then 48 + d else 87 + d)

def hexDigitCharUpper (d : Nat) : Char :=
  Char.ofNat (if d < 10 then 48 + d else 55 + d)

def binDigitChar (d : Nat) : Char := if d = 0 then '0' else '1'

/-- Most-significant-first digits of `n` in base `base`, empty for `n = 0`;
`fuel ≥ n` makes the recursion structural. -/
def natDigitsAux (dig : Nat → Char) (base : Nat) : Nat → Nat → List Char
  | 0, _ => []
  | fuel + 1, n =>
    if n = 0 then []
    else natDigitsAux dig base fuel (n / base) ++ [dig (n % base)]

/-- Python `f"{n:x}"`: minimal lower-case hex digits, `"0"` for zero. -/
def natToHex (n : Nat) : List Char :=
  if n = 0 then ['0'] else natDigitsAux hexDigitChar 16 (n + 1) n

/-- Python `f"{n:X}"`: minimal upper-case hex digits, `"0"` for zero. -/
def natToHexUpper (n : Nat) : List Char :=
  if n = 0 then ['0'] else natDigitsAux hexDigitCharUpper 16 (n + 1) n

/-- Python `bin(n)[2:]`: minimal binary digits, `"0"` for zero. -/
def natToBin (n : Nat) : List Char :=
  if n = 0 then ['0'] else natDigitsAux binDigitChar 2 (n + 1) n

/-- Python `f"0x{n:02x}"` (two-digit minimum, lower case). -/
def hex2 (n : Nat) : String := ⟨'0' :: 'x' :: padZeros (natToHex n) 2⟩

/-! ## The value codec (`_to_int`, `format_dtc_code`, `parse_to_int_or_hex`) -/

/-- A Python value that is either a string or a (nonnegative) integer. -/
inductive PyVal where
  | str (s : String)
  | int (n : Nat)
deriving DecidableEq, Repr

def STATUS_ALLOWED : String := "Allowed"
def STATUS_MUTED : String := "Muted"
def STATUS_EXPECTED : String := "Expected"
def STATUS_ANY : String := "any"

/-- `set(s) <= {"0", "1", "*"}` from the source. -/
def subsetBitPattern (cs : List Char) : Bool :=
  cs.all (fun c => c = '0' || c = '1' || c = '*')

/-- A lower-case hexadecimal digit (`ch in "0123456789abcdef"`). -/
def isLowerHexDigit (c : Char) : Bool :=
  let n := c.toNat
  (48 ≤ n && n ≤ 57) || (97 ≤ n && n ≤ 102)

/-- `_to_int` from the source: hex/bin/decimal string or int to int;
`none` for `"any"` or wildcard bit-pattern strings; `.error` models a
raised `ValueError`. -/
def _to_int : PyVal → Except String (Option Nat)
  | .int n => .ok (some n)
  | .str v =>
    let s := lowerStrip v
    if s = STATUS_ANY.data then .ok none
    else if subsetBitPattern s then .ok none
    else if s.take 2 = ['0', 'x'] then
      match pyIntHex (dropUnderscores (s.drop 2)) with
      | some n => .ok (some n)
      | none => .error "invalid literal for int() with base 16"
    else if s.take 2 = ['0', 'b'] then
      match pyIntBin (dropUnderscores (s.drop 2)) with
      | some n => .ok (some n)
      | none => .error "invalid literal for int() with base 2"
    else
      match pyIntDec s with
      | some n => .ok (some n)
      | none => .error "invalid literal for int() with base 10"

/-- `f"0x{n:0{width}x}"` with the source's width rule:
5 hex digits up to `0xFFFFF`, else the minimal width. -/
def fmtCodeNum (n : Nat) : String :=
  let width := if n ≤ 0xFFFFF then 5 else (natToHex n).length
  ⟨'0' :: 'x' :: padZeros (natToHex n) width⟩

/-- `format_dtc_code` from the source. -/
def format_dtc_code : PyVal → Except String String
  | .int n => .ok (fmtCodeNum n)
  | .str v =>
    let s := lowerStrip v
    if s = STATUS_ANY.data then .ok STATUS_ANY
    else if s.take 2 = ['0', 'x'] then
      let hex_digits := (s.drop 2).filter isLowerHexDigit
      .ok ⟨'0' :: 'x' :: (if hex_digits.isEmpty then ['0', '0'] else hex_digits)⟩
    else if s.take 2 = ['0', 'b'] then
      match pyIntBin (dropUnderscores (s.drop 2)) with
      | some n => .ok (fmtCodeNum n)
      | none => .error "invalid literal for int() with base 2"
    else
      match pyIntDec s with
      | some n => .ok (fmtCodeNum n)
      | none =>
        match pyIntHex s with
        | some n => .ok (fmtCodeNum n)
        | none => .error "invalid literal for int() with base 16"

/-- `parse_to_int_or_hex` from the source. -/
def parse_to_int_or_hex : PyVal → Except String String
  | .int n => .ok (hex2 n)
  | .str v =>
    let low := listLower v.data
    if low = STATUS_ANY.data then .ok STATUS_ANY
    else if low.take 2 = ['0', 'x'] then
      let digits := (listLower (listStrip (v.data.drop 2))).filter isLowerHexDigit
      let digits := if digits.length = 1 then '0' :: digits else digits
      .ok ⟨'0' :: 'x' :: (if digits.isEmpty then ['0', '0'] else digits)⟩
    else if low.take 2 = ['0', 'b'] then
      match pyIntBin (dropUnderscores (v.data.drop 2)) with
      | some n => .ok (hex2 n)
      | none => .error "invalid literal for int() with base 2"
    else if subsetBitPattern v.data then .ok v
    else
      match pyIntDec v.data with
      | some n => .ok (hex2 n)
      | none => .error "invalid literal for int() with base 10"

/-! ## DTC records and matching -/

/-- `DTCInfo` (from `dtcinfo.py`): a DTC code and its status, both
kept as strings here (the constructor lower-cases the code). -/
structure DTCInfo where
  DTC : String
  status : String
deriving DecidableEq, Repr

/-- The `DTCInfo.__init__` normalization: `self.DTC = str(DTC).lower()`. -/
def DTCInfo.make (code status : String) : DTCInfo :=
  ⟨⟨listLower code.data⟩, status⟩

/-- `dtc_matches_code` from the source: both codes decode to integers
and are equal; any exception yields `False`. -/
def dtc_matches_code (dtc rule : DTCInfo) : Bool :=
  match _to_int (.str dtc.DTC), _to_int (.str rule.DTC) with
  | .ok (some a), .ok (some b) => a == b
  | _, _ => false

/-- `status_matches` from the source: `"any"` matches everything, a
pattern containing `*` is compared bit-by-bit against the observed
status (parsed as hex, rendered binary, both zero-padded to the longer
length), otherwise exact integer comparison; parse failures yield
`False`. -/
def status_matches (dut_status rule_status : String) : Bool :=
  if rule_status = STATUS_ANY then true
  else if rule_status.data.contains '*' then
    match pyIntHex dut_status.data with
    | none => false
    | some n =>
      let dut_bin := natToBin n
      let maxlen := max rule_status.data.length dut_bin.length
      let rp := padZeros rule_status.data maxlen
      let db := padZeros dut_bin maxlen
      (db.zip rp).all (fun p => p.2 = '*' || p.1 = p.2)
  else
    match _to_int (.str dut_status), _to_int (.str rule_status) with
    | .ok (some a), .ok (some b) => a == b
    | _, _ => false

/-! ## The comprehensive DTC results table -/

/-- A report table as handed to the report sink. -/
structure ReportTable where
  name : String
  column_header : List String
  data : List (List String)
  expanded : Bool
deriving DecidableEq, Repr

/-- The result cell for a matched rule, following the three status
branches of `build_comprehensive_dtc_results_table` (wildcard pattern,
`"any"`, regular). `type_name` is always one of the three categories. -/
def ruleResult (type_name : String) (dutStatus ruleStatus : String) : String :=
  if ruleStatus.data.contains '*' then
    if status_matches dutStatus ruleStatus then
      if type_name = STATUS_ALLOWED ∨ type_name = STATUS_MUTED then "none" else "pass"
    else "fail"
  else if ruleStatus = STATUS_ANY then
    if type_name = STATUS_EXPECTED then "pass"
    else "none"
  else
    if status_matches dutStatus ruleStatus then
      if type_name = STATUS_ALLOWED ∨ type_name = STATUS_MUTED then "none" else "pass"
    else "fail"

/-- Scan the rule categories in declared order; within a category take
the first rule whose code matches; stop at the first category that
produced a match. -/
def scanRuleSets (d : DTCInfo) : List (String × List DTCInfo) → Option (String × DTCInfo)
  | [] => none
  | (type_name, rules) :: rest =>
    match rules.find? (fun r => dtc_matches_code d r) with
    | some r => some (type_name, r)
    | none => scanRuleSets d rest

/-- Mark every expected rule whose code matches `d` as found
(the source marks all of them, not only the matched rule). -/
def markExpectedFound (d : DTCInfo) (expected : List DTCInfo) (found : List Bool) : List Bool :=
  List.zipWith (fun f ex => f || dtc_matches_code d ex) found expected

/-- One iteration of the `for dut in dut_dtcs` loop: the emitted row
and the updated `expected_found` flags. -/
def dutScanStep (d : DTCInfo) (allowed muted expected : List DTCInfo)
    (found : List Bool) : Except String (List String × List Bool) := do
  let dtc_code ← format_dtc_code (.str d.DTC)
  let dtc_status ← parse_to_int_or_hex (.str d.status)
  match scanRuleSets d
      [(STATUS_ALLOWED, allowed), (STATUS_MUTED, muted), (STATUS_EXPECTED, expected)] with
  | some (type_name, r) => do
    let rc ← format_dtc_code (.str r.DTC)
    let rs ← parse_to_int_or_hex (.str r.status)
    let result := ruleResult type_name d.status r.status
    let found := if type_name = STATUS_EXPECTED then markExpectedFound d expected found else found
    .ok ([dtc_code, dtc_status, "Present", type_name, rc ++ "+" ++ rs, result], found)
  | none =>
    .ok ([dtc_code, dtc_status, "Present", "Unexpected", "", "fail"], found)

/-- The `for dut in dut_dtcs` loop over all observed DTCs. -/
def dutRowsLoop (allowed muted expected : List DTCInfo) :
    List DTCInfo → List Bool → Except String (List (List String) × List Bool)
  | [], found => .ok ([], found)
  | d :: rest, found => do
    let (row, found) ← dutScanStep d allowed muted expected found
    let (rows, found) ← dutRowsLoop allowed muted expected rest found
    .ok (row :: rows, found)

/-- The trailing loop appending one `Not Present` row per expected
rule that was never marked found. -/
def missingRowsLoop : List (DTCInfo × Bool) → Except String (List (List String))
  | [] => .ok []
  | (ex, f) :: rest =>
    if f then missingRowsLoop rest
    else do
      let c ← format_dtc_code (.str ex.DTC)
      let s ← parse_to_int_or_hex (.str ex.status)
      let tail ← missingRowsLoop rest
      .ok ([c, s, "Not Present", STATUS_EXPECTED, c ++ "+" ++ s, "fail"] :: tail)

/-- `build_comprehensive_dtc_results_table` from the source. -/
def build_comprehensive_dtc_results_table
    (dut_dtcs allowed_dtcs muted_dtcs expected_dtcs : List DTCInfo) :
    Except String ReportTable := do
  let (rows, found) ←
    dutRowsLoop allowed_dtcs muted_dtcs expected_dtcs dut_dtcs
      (List.replicate expected_dtcs.length false)
  let miss ← missingRowsLoop (expected_dtcs.zip found)
  .ok ⟨"DTC Comprehensive Evaluation",
       ["DTC", "Status", "Present/Not present", "Type", "DTC+Status", "Result"],
       rows ++ miss, true⟩

/-- Map a fallible function over a list, stopping at the first error
(the effect of a Python `for` loop that may raise). -/
def exceptMapList (f : α → Except String β) : List α → Except String (List β)
  | [] => .ok []
  | x :: xs => do
    let y ← f x
    let ys ← exceptMapList f xs
    .ok (y :: ys)

/-- One row of the rule summary table. -/
def summaryRow (type_name : String) (r : DTCInfo) : Except String (List String) := do
  let c ← format_dtc_code (.str r.DTC)
  let s ← parse_to_int_or_hex (.str r.status)
  .ok [type_name, c, s]

/-- `build_dtc_rule_summary_table` from the source. -/
def build_dtc_rule_summary_table
    (allowed_dtcs expected_dtcs muted_dtcs : List DTCInfo) :
    Except String ReportTable := do
  let a ← exceptMapList (summaryRow STATUS_ALLOWED) allowed_dtcs
  let e ← exceptMapList (summaryRow STATUS_EXPECTED) expected_dtcs
  let m ← exceptMapList (summaryRow STATUS_MUTED) muted_dtcs
  .ok ⟨"DTC Rule Summary", ["Type", "DTC", "Status"], a ++ e ++ m, true⟩

/-- The observables `evaluate_dtc_block` emits to the report sink:
the rule summary table, the comprehensive evaluation table and the
overall step status (the returned `DTC` objects carry no verdict and
are not modelled). -/
structure EvalBlockOut where
  summary : ReportTable
  table : ReportTable
  step : String
deriving DecidableEq, Repr

/-- `evaluate_dtc_block` from the source; the muted rules retrieved
from configuration by `get_muted_dtcs()` are passed as the last
argument. -/
def evaluate_dtc_block
    (dut_dtcs allowed_dtcs expected_dtcs muted_dtcs : List DTCInfo) :
    Except String EvalBlockOut := do
  let summary ← build_dtc_rule_summary_table allowed_dtcs expected_dtcs muted_dtcs
  if dut_dtcs.isEmpty then
    .ok ⟨summary,
         ⟨"DTC Comprehensive Evaluation",
          ["DTC", "Status", "Present/Not present", "Type", "DTC+Status", "Result"],
          [], true⟩,
         "PASS"⟩
  else do
    let table ← build_comprehensive_dtc_results_table
      dut_dtcs allowed_dtcs muted_dtcs expected_dtcs
    let results := (table.data.filterMap (fun row => row[5]?)).filter (fun r => r ≠ "")
    let status := if results.any (fun r => r = "fail") then "FAIL" else "PASS"
    .ok ⟨summary, table, status⟩

/-! ## The diagnostic response classifier -/

/-- One byte as `f"0x{b:02X}".lower()`: lower-case, two-digit minimum. -/
def toHexByte (b : Nat) : String := ⟨'0' :: 'x' :: padZeros (natToHex b) 2⟩

/-- One byte as `f"0x{b:02X}"` without the final `.lower()` (used only
inside the positive-response reason string). -/
def byteHexUpper (b : Nat) : String := ⟨'0' :: 'x' :: padZeros (natToHexUpper b) 2⟩

/-- `to_hex_str` on a byte list: space-separated `0x..` bytes. -/
def to_hex_str_list (bs : List Nat) : String :=
  String.intercalate " " (bs.map toHexByte)

/-- `to_hex_str` on a string: `0x`-prefixed strings parse as hex, other
strings as decimal, two-digit hex output; unparseable strings are
returned unchanged. -/
def to_hex_str_string (s : String) : String :=
  if s.data.take 2 = ['0', 'x'] then
    match pyIntHex s.data with
    | some v => toHexByte v
    | none => s
  else
    match pyIntDec s.data with
    | some v => toHexByte v
    | none => s

/-- An `expected_response` argument: a string grammar or an explicit
byte list. -/
inductive PyResp where
  | str (s : String)
  | list (bs : List Nat)
deriving DecidableEq, Repr

/-- `to_hex_str(expected_response)`. -/
def to_hex_str_resp : PyResp → String
  | .list bs => to_hex_str_list bs
  | .str s => to_hex_str_string s

/-- The verdict record built by `evaluate_diagnostic_expected_response`. -/
structure DiagResponse where
  name : String
  request_did : String
  response_did : String
  expected_did : String
  responsetype : String
  result : String
  reason : String
deriving DecidableEq, Repr

/-- The branch cascade of `evaluate_diagnostic_expected_response`,
returning `(responsetype, result, reason)`; `.error` models the raised
`ValueError` when a response was expected but none arrived. The `did`
and `actual_response` arguments are taken already in byte form. -/
def evalRespCore (did actual : List Nat) (expected : PyResp) :
    Except String (String × String × String) :=
  if expected = .str "none" then
    .ok ("none", "NONE",
      if actual.isEmpty then "Expected no response and none was received"
      else "Expected no response, received: " ++ to_hex_str_list actual)
  else if actual.isEmpty then
    .error ("Expected response " ++ to_hex_str_resp expected ++ ", but received no response.")
  else
    match expected with
    | .str s =>
      if s.data.take 3 = ['l', 'n', '('] ∧ s.data.getLast? = some ')' then
        match pyIntDecSigned ((s.data.drop 3).dropLast) with
        | some N =>
          if did.head? = some 0x22 then
            if !actual.isEmpty && actual.head? == some 0x62
                && ((actual.drop 3).length : Int) == N then
              .ok ("ln", "PASS", "")
            else
              .ok ("ln", "FAIL",
                "For DID 0x22, expected response[0]==0x62 and len(response[3:])=="
                  ++ toString N ++ ", got " ++ to_hex_str_list actual)
          else
            .ok ("ln", "FAIL", "ln(N) length check applies only to DID 0x22")
        | none => .ok ("ln", "FAIL", "Invalid ln(N) format: " ++ s)
      else if s = "positive" then
        let expected_first := did.head?.map (fun v => v + 0x40)
        if (match actual.head?, expected_first with
            | some a0, some e0 => a0 == e0
            | _, _ => false) then
          .ok ("positive", "PASS", "")
        else
          .ok ("positive", "FAIL",
            "Expected positive response (DID[0] + 0x40 == "
              ++ byteHexUpper (expected_first.getD 0) ++ "), got "
              ++ to_hex_str_list actual)
      else if s = "negative" then
        if (match actual.head? with | some a0 => a0 == 0x7F | none => false) then
          .ok ("negative", "PASS", "")
        else
          .ok ("negative", "FAIL",
            "Expected negative response (0x7F), got " ++ to_hex_str_list actual)
      else
        .ok ("unknown", "FAIL", "Unknown expected_response format: " ++ s)
    | .list bs =>
      if actual == bs then
        .ok ("explicit", "PASS", "")
      else
        .ok ("explicit", "FAIL",
          "Expected " ++ to_hex_str_list bs ++ " got " ++ to_hex_str_list actual)

/-- `evaluate_diagnostic_expected_response` from the source (with the
default `name=None`, so the name falls back to the DID rendering). -/
def evaluate_diagnostic_expected_response (did actual : List Nat) (expected : PyResp) :
    Except String DiagResponse := do
  let (responsetype, result, reason) ← evalRespCore did actual expected
  .ok { name := to_hex_str_list did
        request_did := to_hex_str_list did
        response_did := to_hex_str_list actual
        expected_did := match expected with
          | .list bs => to_hex_str_list bs
          | .str s => to_hex_str_string s
        responsetype := responsetype
        result := result
        reason := reason }

/-! ## Helper views of the scan loop (used by the theorems below) -/

/-- The row `dutScanStep` emits for one observed DTC (the row does not
depend on the `expected_found` flags). -/
def dutRow (d : DTCInfo) (allowed muted expected : List DTCInfo) :
    Except String (List String) := do
  let dtc_code ← format_dtc_code (.str d.DTC)
  let dtc_status ← parse_to_int_or_hex (.str d.status)
  match scanRuleSets d
      [(STATUS_ALLOWED, allowed), (STATUS_MUTED, muted), (STATUS_EXPECTED, expected)] with
  | some (type_name, r) => do
    let rc ← format_dtc_code (.str r.DTC)
    let rs ← parse_to_int_or_hex (.str r.status)
    .ok [dtc_code, dtc_status, "Present", type_name, rc ++ "+" ++ rs,
         ruleResult type_name d.status r.status]
  | none =>
    .ok [dtc_code, dtc_status, "Present", "Unexpected", "", "fail"]

/-- Whether the category scan for `d` stops in the Expected category. -/
def scanExpectedHit (d : DTCInfo) (allowed muted expected : List DTCInfo) : Bool :=
  match scanRuleSets d
      [(STATUS_ALLOWED, allowed), (STATUS_MUTED, muted), (STATUS_EXPECTED, expected)] with
  | some (type_name, _) => type_name == STATUS_EXPECTED
  | none => false

/-- The `expected_found` update performed for one observed DTC. -/
def foundUpdate (expected allowed muted : List DTCInfo) (found : List Bool) (d : DTCInfo) :
    List Bool :=
  if scanExpectedHit d allowed muted expected then markExpectedFound d expected found
  else found

/-! ## Claim C10: `format_dtc_code` for the `"any"` sentinel -/

/-- C10: for every input string whose trimmed lower-case form is
`"any"`, `format_dtc_code` returns the literal string `"any"`, not a
`0x`-prefixed hex string. -/
theorem c10_format_any (s : String) (h : lowerStrip s = "any".data) :
    format_dtc_code (.str s) = .ok "any" := by
  unfold format_dtc_code
  simp [h, STATUS_ANY]

theorem c10_format_any_witness :
    lowerStrip " ANY " = "any".data ∧ format_dtc_code (.str " ANY ") = .ok "any" :=
  ⟨by decide, c10_format_any " ANY " (by decide)⟩

/-! ## Claim C4: the `"none"` grammar of the response classifier -/

theorem c4_counterexample :
    (Except.map (fun r => r.result)
      (evaluate_diagnostic_expected_response [0x22] [0x01] (.str "none"))) = .ok "NONE" ∧
    ("NONE" : String) ≠ "FAIL" := by
  constructor
  · decide
  · decide

/-- C4 (amended): with expected response `"none"` the classifier always
returns result `NONE` — also when the actual response is non-empty, in
which case only the `reason` reports the unexpected received bytes. -/
theorem c4_none_verdict (did actual : List Nat) :
    evaluate_diagnostic_expected_response did actual (.str "none") =
      .ok { name := to_hex_str_list did
            request_did := to_hex_str_list did
            response_did := to_hex_str_list actual
            expected_did := "none"
            responsetype := "none"
            result := "NONE"
            reason := if actual.isEmpty then "Expected no response and none was received"
                      else "Expected no response, received: " ++ to_hex_str_list actual } := by
  have h1 : to_hex_str_string "none" = "none" := by decide
  unfold evaluate_diagnostic_expected_response evalRespCore
  simp [h1, Bind.bind, Except.bind]

/-! ## Claim C5: empty actual response with a non-`"none"` expectation -/

/-- C5: whenever the actual response is empty and the expected response
is not the `"none"` grammar, the classifier raises (here: returns
`.error`) instead of producing a soft `Fail` verdict. -/
theorem c5_empty_raises (did actual : List Nat) (expected : PyResp)
    (h1 : expected ≠ .str "none") (h2 : actual = []) :
    evaluate_diagnostic_expected_response did actual expected =
      .error ("Expected response " ++ to_hex_str_resp expected
              ++ ", but received no response.") := by
  subst h2
  unfold evaluate_diagnostic_expected_response evalRespCore
  simp [h1, Bind.bind, Except.bind]

theorem c5_empty_raises_witness :
    ((PyResp.list [0x62, 0x01]) ≠ .str "none") ∧
    evaluate_diagnostic_expected_response [0x22, 0xF1, 0x90] [] (.list [0x62, 0x01]) =
      .error "Expected response 0x62 0x01, but received no response." :=
  ⟨by decide,
   (c5_empty_raises [0x22, 0xF1, 0x90] [] (.list [0x62, 0x01]) (by decide) rfl).trans
     (by decide)⟩

/-! ## Claim C6: the `ln(N)` length-check grammar -/

/-- C6: for an `ln(N)` expectation and a non-empty actual response,
the verdict is `PASS` iff the DID's first byte is `0x22`,
`actual[0] = 0x62` and `len(actual[3:]) = N`; with a first byte other
than `0x22` the verdict is always `FAIL` with an explanatory reason,
regardless of `N`. -/
theorem c6_ln_check (did actual : List Nat) (s : String) (N : Int)
    (hne : actual ≠ [])
    (hs3 : s.data.take 3 = ['l', 'n', '('])
    (hlast : s.data.getLast? = some ')')
    (hN : pyIntDecSigned ((s.data.drop 3).dropLast) = some N) :
    ∃ r, evaluate_diagnostic_expected_response did actual (.str s) = .ok r ∧
      r.responsetype = "ln" ∧
      (did.head? = some 0x22 →
        ((r.result = "PASS") ↔
          (actual.head? = some 0x62 ∧ ((actual.drop 3).length : Int) = N)) ∧
        (r.result = "PASS" ∨ (r.result = "FAIL" ∧
          r.reason = "For DID 0x22, expected response[0]==0x62 and len(response[3:])=="
            ++ toString N ++ ", got " ++ to_hex_str_list actual))) ∧
      (did.head? ≠ some 0x22 →
        r.result = "FAIL" ∧ r.reason = "ln(N) length check applies only to DID 0x22") := by
  have hsn : s ≠ "none" := by
    intro h
    rw [h] at hs3
    exact absurd hs3 (by decide)
  have hie : actual.isEmpty = false := by
    cases actual with
    | nil => exact absurd rfl hne
    | cons a l => rfl
  have hld : ((actual.drop 3).length : Int) = ((actual.length - 3 : Nat) : Int) := by
    rw [List.length_drop]
  by_cases h22 : did.head? = some 0x22
  · by_cases hh : actual.head? = some 0x62
    · by_cases hl : ((actual.length - 3 : Nat) : Int) = N
      · refine ⟨⟨to_hex_str_list did, to_hex_str_list did, to_hex_str_list actual,
          to_hex_str_string s, "ln", "PASS", ""⟩, ?_, rfl, ?_, ?_⟩
        · unfold evaluate_diagnostic_expected_response evalRespCore
          simp [hsn, hie, hs3, hlast, hN, h22, hh, hl, Bind.bind, Except.bind]
        · intro _
          exact ⟨by simp [hh, hld, hl], Or.inl rfl⟩
        · intro h
          exact absurd h22 h
      · refine ⟨⟨to_hex_str_list did, to_hex_str_list did, to_hex_str_list actual,
          to_hex_str_string s, "ln", "FAIL",
          ("For DID 0x22, expected response[0]==0x62 and len(response[3:])=="
            ++ toString N ++ ", got " ++ to_hex_str_list actual)⟩, ?_, rfl, ?_, ?_⟩
        · unfold evaluate_diagnostic_expected_response evalRespCore
          simp [hsn, hie, hs3, hlast, hN, h22, hl, Bind.bind, Except.bind]
        · intro _
          refine ⟨⟨fun h => by simp at h, fun h => ?_⟩, Or.inr ⟨rfl, rfl⟩⟩
          exact absurd (hld ▸ h.2) hl
        · intro h
          exact absurd h22 h
    · refine ⟨⟨to_hex_str_list did, to_hex_str_list did, to_hex_str_list actual,
        to_hex_str_string s, "ln", "FAIL",
        ("For DID 0x22, expected response[0]==0x62 and len(response[3:])=="
          ++ toString N ++ ", got " ++ to_hex_str_list actual)⟩, ?_, rfl, ?_, ?_⟩
      · unfold evaluate_diagnostic_expected_response evalRespCore
        simp [hsn, hie, hs3, hlast, hN, h22, hh, Bind.bind, Except.bind]
      · intro _
        refine ⟨⟨fun h => by simp at h, fun h => absurd h.1 hh⟩, Or.inr ⟨rfl, rfl⟩⟩
      · intro h
        exact absurd h22 h
  · refine ⟨⟨to_hex_str_list did, to_hex_str_list did, to_hex_str_list actual,
      to_hex_str_string s, "ln", "FAIL",
      "ln(N) length check applies only to DID 0x22"⟩, ?_, rfl, ?_, ?_⟩
    · unfold evaluate_diagnostic_expected_response evalRespCore
      simp [hsn, hie, hs3, hlast, hN, h22, Bind.bind, Except.bind]
    · intro h
      exact absurd h h22
    · intro _
      exact ⟨rfl, rfl⟩

theorem c6_ln_check_witness :
    (([0x62, 0xAA, 0xBB, 0x01, 0x02, 0x03] : List Nat) ≠ []) ∧
    ("ln(3)".data.take 3 = ['l', 'n', '(']) ∧
    ("ln(3)".data.getLast? = some ')') ∧
    (pyIntDecSigned (("ln(3)".data.drop 3).dropLast) = some 3) ∧
    (∃ r, evaluate_diagnostic_expected_response [0x22] [0x62, 0xAA, 0xBB, 0x01, 0x02, 0x03]
        (.str "ln(3)") = .ok r ∧
      r.responsetype = "ln" ∧
      (([0x22] : List Nat).head? = some 0x22 →
        ((r.result = "PASS") ↔
          (([0x62, 0xAA, 0xBB, 0x01, 0x02, 0x03] : List Nat).head? = some 0x62 ∧
            ((([0x62, 0xAA, 0xBB, 0x01, 0x02, 0x03] : List Nat).drop 3).length : Int) = 3)) ∧
        (r.result = "PASS" ∨ (r.result = "FAIL" ∧
          r.reason = "For DID 0x22, expected response[0]==0x62 and len(response[3:])=="
            ++ toString (3 : Int) ++ ", got "
            ++ to_hex_str_list [0x62, 0xAA, 0xBB, 0x01, 0x02, 0x03]))) ∧
      (([0x22] : List Nat).head? ≠ some 0x22 →
        r.result = "FAIL" ∧ r.reason = "ln(N) length check applies only to DID 0x22")) :=
  ⟨by decide, by decide, by decide, by decide,
   c6_ln_check [0x22] [0x62, 0xAA, 0xBB, 0x01, 0x02, 0x03] "ln(3)" 3
     (by decide) (by decide) (by decide) (by decide)⟩

/-! ## String-normalization lemmas -/

theorem dropWhile_eq_self_of (p : Char → Bool) (cs : List Char)
    (h : ∀ c ∈ cs, p c = false) : cs.dropWhile p = cs := by
  cases cs with
  | nil => rfl
  | cons c cs =>
    rw [List.dropWhile_cons, h c (List.mem_cons_self c cs)]
    simp

theorem listStrip_eq_self (cs : List Char) (h : ∀ c ∈ cs, isPySpace c = false) :
    listStrip cs = cs := by
  unfold listStrip
  rw [dropWhile_eq_self_of _ _ h,
      dropWhile_eq_self_of _ _ (fun c hc => h c (List.mem_reverse.mp hc)),
      List.reverse_reverse]

theorem listLower_eq_self (cs : List Char) (h : ∀ c ∈ cs, pyToLower c = c) :
    listLower cs = cs := by
  induction cs with
  | nil => rfl
  | cons c cs ih =>
    simp only [listLower, List.map_cons]
    rw [h c (List.mem_cons_self c cs)]
    have := ih (fun x hx => h x (List.mem_cons_of_mem c hx))
    simp only [listLower] at this
    rw [this]

/-! ## Hex-digit character facts -/

theorem hexDigitChar_facts : ∀ d, d < 16 →
    hexDigitVal (hexDigitChar d) = some d ∧
    isPySpace (hexDigitChar d) = false ∧
    pyToLower (hexDigitChar d) = hexDigitChar d ∧
    hexDigitChar d ≠ '_' ∧ hexDigitChar d ≠ 'x' ∧ hexDigitChar d ≠ 'X' ∧
    isLowerHexDigit (hexDigitChar d) = true := by decide

theorem natDigitsAux_zero (dig : Nat → Char) (base : Nat) :
    ∀ fuel, natDigitsAux dig base fuel 0 = [] := by
  intro fuel
  cases fuel with
  | zero => rfl
  | succ fuel => simp [natDigitsAux]

theorem natDigitsAux_mem (dig : Nat → Char) (base : Nat) (hb : 0 < base) :
    ∀ fuel n c, c ∈ natDigitsAux dig base fuel n → ∃ d, d < base ∧ c = dig d := by
  intro fuel
  induction fuel with
  | zero =>
    intro n c hc
    simp [natDigitsAux] at hc
  | succ fuel ih =>
    intro n c hc
    by_cases h0 : n = 0
    · rw [h0, natDigitsAux_zero] at hc
      simp at hc
    · simp only [natDigitsAux, if_neg h0] at hc
      rcases List.mem_append.mp hc with h | h
      · exact ih _ _ h
      · exact ⟨n % base, Nat.mod_lt _ hb, List.mem_singleton.mp h⟩

theorem natToHex_mem (n : Nat) : ∀ c ∈ natToHex n, ∃ d, d < 16 ∧ c = hexDigitChar d := by
  intro c hc
  unfold natToHex at hc
  by_cases h0 : n = 0
  · rw [if_pos h0] at hc
    refine ⟨0, by decide, ?_⟩
    rw [List.mem_singleton.mp hc]
    decide
  · rw [if_neg h0] at hc
    exact natDigitsAux_mem _ _ (by decide) _ _ _ hc

theorem padZeros_natToHex_mem (n w : Nat) :
    ∀ c ∈ padZeros (natToHex n) w, ∃ d, d < 16 ∧ c = hexDigitChar d := by
  intro c hc
  unfold padZeros at hc
  rcases List.mem_append.mp hc with h | h
  · rw [List.eq_of_mem_replicate h]
    exact ⟨0, by decide, by decide⟩
  · exact natToHex_mem n c h

/-! ## Digit-string value lemmas -/

theorem digitsValAux_some (dv : Char → Option Nat) (base : Nat) (cs : List Char)
    (h : ∀ c ∈ cs, (dv c).isSome = true) :
    ∀ a, digitsValAux dv base cs a =
      some (cs.foldl (fun x c => x * base + (dv c).getD 0) a) := by
  induction cs with
  | nil => intro a; rfl
  | cons c cs ih =>
    intro a
    rcases Option.isSome_iff_exists.mp (h c (List.mem_cons_self c cs)) with ⟨d, hd⟩
    have hrec := ih (fun x hx => h x (List.mem_cons_of_mem c hx)) (a * base + d)
    simp [digitsValAux, hd, hrec]

theorem digitsValAux_none (dv : Char → Option Nat) (base : Nat) :
    ∀ (cs : List Char), (∃ c ∈ cs, dv c = none) →
      ∀ a, digitsValAux dv base cs a = none := by
  intro cs
  induction cs with
  | nil =>
    rintro ⟨c, hc, _⟩
    simp at hc
  | cons c cs ih =>
    rintro ⟨x, hx, hdx⟩ a
    rcases List.mem_cons.mp hx with rfl | hx'
    · simp [digitsValAux, hdx]
    · cases hdvc : dv c with
      | none => simp [digitsValAux, hdvc]
      | some d =>
        simp only [digitsValAux, hdvc]
        exact ih ⟨x, hx', hdx⟩ _

theorem foldl_digits_shift (dv : Char → Option Nat) (base : Nat) :
    ∀ (cs : List Char) (a : Nat),
      cs.foldl (fun x c => x * base + (dv c).getD 0) a
        = a * base ^ cs.length + cs.foldl (fun x c => x * base + (dv c).getD 0) 0 := by
  intro cs
  induction cs with
  | nil => intro a; simp
  | cons c cs ih =>
    intro a
    simp only [List.foldl_cons, List.length_cons]
    rw [ih (a * base + (dv c).getD 0), ih (0 * base + (dv c).getD 0)]
    ring

theorem natDigitsAux_foldl (dig : Nat → Char) (dv : Char → Option Nat) (base : Nat)
    (hb : 1 < base) (hdig : ∀ d, d < base → dv (dig d) = some d) :
    ∀ fuel n, n ≤ fuel →
      (natDigitsAux dig base fuel n).foldl (fun x c => x * base + (dv c).getD 0) 0 = n := by
  intro fuel
  induction fuel with
  | zero =>
    intro n hn
    have h0 : n = 0 := by omega
    rw [h0, natDigitsAux_zero]
    rfl
  | succ fuel ih =>
    intro n hn
    by_cases h0 : n = 0
    · rw [h0, natDigitsAux_zero]
      rfl
    · simp only [natDigitsAux, if_neg h0]
      rw [List.foldl_append]
      have hrec : n / base ≤ fuel := by
        have := Nat.div_lt_self (Nat.pos_of_ne_zero h0) hb
        omega
      rw [ih (n / base) hrec]
      simp only [List.foldl_cons, List.foldl_nil]
      rw [hdig (n % base) (Nat.mod_lt _ (by omega))]
      simp only [Option.getD_some]
      rw [Nat.mul_comm]
      exact Nat.div_add_mod n base

theorem natDigitsAux_ne_nil (dig : Nat → Char) (base : Nat) :
    ∀ fuel n, n ≠ 0 → n ≤ fuel → natDigitsAux dig base fuel n ≠ [] := by
  intro fuel n h0 hn
  cases fuel with
  | zero => omega
  | succ fuel => simp [natDigitsAux, h0]

theorem natDigitsAux_length_le (dig : Nat → Char) (base : Nat) (hb : 1 < base) :
    ∀ fuel n k, n ≤ fuel → n < base ^ k → (natDigitsAux dig base fuel n).length ≤ k := by
  intro fuel
  induction fuel with
  | zero =>
    intro n k hn _
    have h0 : n = 0 := by omega
    rw [h0, natDigitsAux_zero]
    simp
  | succ fuel ih =>
    intro n k hn hk
    by_cases h0 : n = 0
    · rw [h0, natDigitsAux_zero]
      simp
    · cases k with
      | zero =>
        simp only [pow_zero, Nat.lt_one_iff] at hk
        omega
      | succ k =>
        simp only [natDigitsAux, if_neg h0, List.length_append, List.length_cons,
          List.length_nil]
        have h1 : n / base ≤ fuel := by
          have := Nat.div_lt_self (Nat.pos_of_ne_zero h0) hb
          omega
        have h2 : n / base < base ^ k := by
          rw [Nat.div_lt_iff_lt_mul (by omega : 0 < base)]
          calc n < base ^ (k + 1) := hk
            _ = base ^ k * base := by rw [pow_succ]
        have := ih (n / base) k h1 h2
        omega

theorem natDigitsAux_lt (dig : Nat → Char) (base : Nat) (hb : 1 < base) :
    ∀ fuel n, n ≤ fuel → n < base ^ (natDigitsAux dig base fuel n).length := by
  intro fuel
  induction fuel with
  | zero =>
    intro n hn
    have h0 : n = 0 := by omega
    rw [h0, natDigitsAux_zero]
    simp
  | succ fuel ih =>
    intro n hn
    by_cases h0 : n = 0
    · rw [h0, natDigitsAux_zero]
      simp
    · simp only [natDigitsAux, if_neg h0, List.length_append, List.length_cons,
        List.length_nil]
      have h1 : n / base ≤ fuel := by
        have := Nat.div_lt_self (Nat.pos_of_ne_zero h0) hb
        omega
      have h2 := ih (n / base) h1
      have hmod : n % base < base := Nat.mod_lt _ (by omega)
      have hdm : base * (n / base) + n % base = n := Nat.div_add_mod n base
      have hstep : n < base * (n / base + 1) := by
        rw [Nat.mul_add, Nat.mul_one]
        omega
      have hle : n / base + 1 ≤ base ^ (natDigitsAux dig base fuel (n / base)).length := h2
      calc n < base * (n / base + 1) := hstep
        _ ≤ base * base ^ (natDigitsAux dig base fuel (n / base)).length :=
          Nat.mul_le_mul_left base hle
        _ = base ^ ((natDigitsAux dig base fuel (n / base)).length + (0 + 1)) := by
          rw [pow_succ, Nat.mul_comm]

theorem natDigitsAux_pow_le (dig : Nat → Char) (base : Nat) (hb : 1 < base) :
    ∀ fuel n, n ≤ fuel → n ≠ 0 →
      base ^ ((natDigitsAux dig base fuel n).length - 1) ≤ n := by
  intro fuel
  induction fuel with
  | zero =>
    intro n hn h0
    omega
  | succ fuel ih =>
    intro n hn h0
    by_cases hsmall : n < base
    · have hdiv : n / base = 0 := Nat.div_eq_of_lt hsmall
      simp only [natDigitsAux, if_neg h0, hdiv, natDigitsAux_zero, List.nil_append,
        List.length_cons, List.length_nil]
      simp
      omega
    · have h1 : n / base ≤ fuel := by
        have := Nat.div_lt_self (Nat.pos_of_ne_zero h0) hb
        omega
      have hd0 : n / base ≠ 0 := by
        have : base ≤ n := by omega
        have := Nat.one_le_div_iff (by omega : 0 < base) |>.mpr this
        omega
      have hrec := ih (n / base) h1 hd0
      have hnn := natDigitsAux_ne_nil dig base fuel (n / base) hd0 h1
      have hlen : 1 ≤ (natDigitsAux dig base fuel (n / base)).length := by
        cases hl : (natDigitsAux dig base fuel (n / base)).length with
        | zero => exact absurd (List.length_eq_zero.mp hl) hnn
        | succ k => omega
      simp only [natDigitsAux, if_neg h0, List.length_append, List.length_cons,
        List.length_nil]
      have heq : (natDigitsAux dig base fuel (n / base)).length + (0 + 1) - 1
          = ((natDigitsAux dig base fuel (n / base)).length - 1) + 1 := by omega
      rw [heq, pow_succ]
      calc base ^ ((natDigitsAux dig base fuel (n / base)).length - 1) * base
          ≤ (n / base) * base := Nat.mul_le_mul_right base hrec
        _ ≤ n := Nat.div_mul_le_self n base

/-! ## `natToHex` facts and the hex round trip -/

theorem natToHex_foldl (n : Nat) :
    (natToHex n).foldl (fun x c => x * 16 + (hexDigitVal c).getD 0) 0 = n := by
  unfold natToHex
  by_cases h0 : n = 0
  · rw [if_pos h0, h0]
    decide
  · rw [if_neg h0]
    exact natDigitsAux_foldl hexDigitChar hexDigitVal 16 (by decide)
      (fun d hd => (hexDigitChar_facts d hd).1) (n + 1) n (by omega)

theorem natToHex_ne_nil (n : Nat) : natToHex n ≠ [] := by
  unfold natToHex
  by_cases h0 : n = 0
  · rw [if_pos h0]
    simp
  · rw [if_neg h0]
    exact natDigitsAux_ne_nil _ _ _ _ h0 (by omega)

theorem natToHex_length_le5 (n : Nat) (h : n ≤ 0xFFFFF) : (natToHex n).length ≤ 5 := by
  unfold natToHex
  by_cases h0 : n = 0
  · rw [if_pos h0]
    simp
  · rw [if_neg h0]
    exact natDigitsAux_length_le _ _ (by decide) (n + 1) n 5 (by omega)
      (lt_of_le_of_lt h (by norm_num))

theorem natToHex_minimal (n : Nat) (h0 : n ≠ 0) :
    16 ^ ((natToHex n).length - 1) ≤ n ∧ n < 16 ^ (natToHex n).length := by
  unfold natToHex
  rw [if_neg h0]
  exact ⟨natDigitsAux_pow_le _ _ (by decide) _ _ (by omega) h0,
         natDigitsAux_lt _ _ (by decide) _ _ (by omega)⟩

theorem foldl_hex_replicate_zero (k : Nat) :
    (List.replicate k '0').foldl (fun x c => x * 16 + (hexDigitVal c).getD 0) 0 = 0 := by
  induction k with
  | zero => rfl
  | succ k ih =>
    rw [List.replicate_succ, List.foldl_cons]
    have h : (0 : Nat) * 16 + (hexDigitVal '0').getD 0 = 0 := by decide
    rw [h]
    exact ih

theorem padZeros_length (cs : List Char) (w : Nat) :
    (padZeros cs w).length = max w cs.length := by
  simp [padZeros]
  omega

theorem padZeros_natToHex_ne_nil (n w : Nat) : padZeros (natToHex n) w ≠ [] := by
  unfold padZeros
  intro h
  exact natToHex_ne_nil n (List.append_eq_nil.mp h).2

theorem pyIntHex_pad_natToHex (n w : Nat) :
    pyIntHex (padZeros (natToHex n) w) = some n := by
  have hmem := padZeros_natToHex_mem n w
  have hstrip : listStrip (padZeros (natToHex n) w) = padZeros (natToHex n) w :=
    listStrip_eq_self _ (fun c hc => by
      rcases hmem c hc with ⟨d, hd, rfl⟩
      exact (hexDigitChar_facts d hd).2.1)
  have hdrop : drop0xHead (padZeros (natToHex n) w) = padZeros (natToHex n) w := by
    unfold drop0xHead
    rw [if_neg]
    rintro ⟨hlen, h0, hx⟩
    rcases hx with hx | hx
    · rcases hmem _ (List.getElem?_mem hx) with ⟨d, hd, hEq⟩
      exact (hexDigitChar_facts d hd).2.2.2.2.1 hEq.symm
    · rcases hmem _ (List.getElem?_mem hx) with ⟨d, hd, hEq⟩
      exact (hexDigitChar_facts d hd).2.2.2.2.2.1 hEq.symm
  have hne : (padZeros (natToHex n) w).isEmpty = false := by
    cases h : padZeros (natToHex n) w with
    | nil => exact absurd h (padZeros_natToHex_ne_nil n w)
    | cons c cs => rfl
  unfold pyIntHex
  rw [hstrip, hdrop]
  simp only [hne, Bool.false_eq_true, if_false]
  rw [digitsValAux_some hexDigitVal 16 _ (fun c hc => by
    rcases hmem c hc with ⟨d, hd, rfl⟩
    rw [(hexDigitChar_facts d hd).1]
    rfl)]
  unfold padZeros
  rw [List.foldl_append, foldl_hex_replicate_zero, natToHex_foldl]

/-! ## Claim C7: `format_dtc_code` width rules -/

/-- C7: for an explicit `0x`-prefixed hex string the code formatter
strips separators (it keeps exactly the supplied hex digits, so e.g.
`"0x1_2f"` becomes `"0x12f"`) and pads a completely empty digit string
to `"00"`; when all supplied digits are hex digits the digit count is
preserved verbatim; for every other input with numeric value `n` it
emits `0x` plus lower-case hex zero-padded to width 5 for
`n ≤ 0xFFFFF` and to the minimal width otherwise; with the concrete
examples of the spec. -/
theorem c7_format_width :
    (∀ (s : String) (ds : List Char), lowerStrip s = '0' :: 'x' :: ds →
      ((ds.filter isLowerHexDigit ≠ [] →
        format_dtc_code (.str s) = .ok ⟨'0' :: 'x' :: ds.filter isLowerHexDigit⟩) ∧
       (ds.filter isLowerHexDigit = [] →
        format_dtc_code (.str s) = .ok "0x00"))) ∧
    (∀ (s : String) (ds : List Char), lowerStrip s = '0' :: 'x' :: ds → ds ≠ [] →
      (∀ c ∈ ds, isLowerHexDigit c = true) →
      format_dtc_code (.str s) = .ok ⟨'0' :: 'x' :: ds⟩) ∧
    (∀ n : Nat, ∃ ds : List Char,
      format_dtc_code (.int n) = .ok ⟨'0' :: 'x' :: ds⟩ ∧
      pyIntHex ds = some n ∧
      (n ≤ 0xFFFFF → ds.length = 5) ∧
      (0xFFFFF < n → 16 ^ (ds.length - 1) ≤ n ∧ n < 16 ^ ds.length)) ∧
    (∀ (s : String) (n : Nat), lowerStrip s ≠ [] →
      (∀ c ∈ lowerStrip s, (decDigitVal c).isSome = true) →
      pyIntDec (lowerStrip s) = some n →
      format_dtc_code (.str s) = .ok (fmtCodeNum n) ∧
      format_dtc_code (.int n) = .ok (fmtCodeNum n)) ∧
    (∀ (s : String) (bits : List Char) (n : Nat), lowerStrip s = '0' :: 'b' :: bits →
      pyIntBin (dropUnderscores bits) = some n →
      format_dtc_code (.str s) = .ok (fmtCodeNum n)) ∧
    (format_dtc_code (.int 0x101) = .ok "0x00101" ∧
     format_dtc_code (.int 0x123456) = .ok "0x123456" ∧
     format_dtc_code (.str "0x0A") = .ok "0x0a" ∧
     format_dtc_code (.str "0x1_2f") = .ok "0x12f" ∧
     format_dtc_code (.str "0x") = .ok "0x00") := by
  have hexgen : ∀ (s : String) (ds : List Char), lowerStrip s = '0' :: 'x' :: ds →
      ((ds.filter isLowerHexDigit ≠ [] →
        format_dtc_code (.str s) = .ok ⟨'0' :: 'x' :: ds.filter isLowerHexDigit⟩) ∧
       (ds.filter isLowerHexDigit = [] →
        format_dtc_code (.str s) = .ok "0x00")) := by
    intro s ds hs
    have hany : ('0' :: 'x' :: ds) ≠ "any".data := by
      intro h
      injection h with h1 _
      exact absurd h1 (by decide)
    constructor
    · intro hne
      have hie : (ds.filter isLowerHexDigit).isEmpty = false := by
        cases hfd : ds.filter isLowerHexDigit with
        | nil => exact absurd hfd hne
        | cons c cs => rfl
      simp only [format_dtc_code, STATUS_ANY]
      rw [hs, if_neg hany]
      simp [hie]
    · intro hemp
      simp only [format_dtc_code, STATUS_ANY]
      rw [hs, if_neg hany]
      simp [hemp]
  refine ⟨hexgen, ?_, ?_, ?_, ?_, by decide, by decide, by decide, by decide, by decide⟩
  · intro s ds hs hne hhex
    have hf : ds.filter isLowerHexDigit = ds := List.filter_eq_self.mpr hhex
    have h := (hexgen s ds hs).1 (by rw [hf]; exact hne)
    rw [hf] at h
    exact h
  · intro n
    refine ⟨padZeros (natToHex n) (if n ≤ 0xFFFFF then 5 else (natToHex n).length),
      rfl, ?_, ?_, ?_⟩
    · by_cases h : n ≤ 0xFFFFF
      · rw [if_pos h]
        exact pyIntHex_pad_natToHex n 5
      · rw [if_neg h]
        exact pyIntHex_pad_natToHex n _
    · intro h
      rw [if_pos h, padZeros_length]
      have := natToHex_length_le5 n h
      omega
    · intro h
      have h0 : n ≠ 0 := by omega
      rw [if_neg (by omega), padZeros_length]
      have hmin := natToHex_minimal n h0
      have : max (natToHex n).length (natToHex n).length = (natToHex n).length := by omega
      rw [this]
      exact hmin
  · intro s n hne hdig hdec
    constructor
    · have hany : lowerStrip s ≠ "any".data := by
        intro h
        have : 'a' ∈ lowerStrip s := by
          rw [h]
          decide
        have := hdig _ this
        simp [decDigitVal] at this
      have h0x : (lowerStrip s).take 2 ≠ (['0', 'x'] : List Char) := by
        intro h
        have : 'x' ∈ lowerStrip s := List.take_subset 2 _ (by rw [h]; decide)
        have := hdig _ this
        simp [decDigitVal] at this
      have h0b : (lowerStrip s).take 2 ≠ (['0', 'b'] : List Char) := by
        intro h
        have : 'b' ∈ lowerStrip s := List.take_subset 2 _ (by rw [h]; decide)
        have := hdig _ this
        simp [decDigitVal] at this
      simp only [format_dtc_code, STATUS_ANY]
      rw [if_neg hany, if_neg h0x, if_neg h0b, hdec]
    · rfl
  · intro s bits n hs hbin
    have hany : ('0' :: 'b' :: bits) ≠ "any".data := by
      intro h
      injection h with h1 _
      exact absurd h1 (by decide)
    have h0x : ('0' :: 'b' :: bits).take 2 ≠ (['0', 'x'] : List Char) := by
      intro h
      simp [List.take] at h
    simp only [format_dtc_code, STATUS_ANY]
    rw [hs, if_neg hany, if_neg h0x]
    simp [hbin]

theorem c7_format_width_witness :
    (lowerStrip "0x1_2f" = '0' :: 'x' :: ['1', '_', '2', 'f']) ∧
    ((['1', '_', '2', 'f'] : List Char).filter isLowerHexDigit ≠ []) ∧
    format_dtc_code (.str "0x1_2f") =
      .ok ⟨'0' :: 'x' :: (['1', '_', '2', 'f'] : List Char).filter isLowerHexDigit⟩ ∧
    (lowerStrip "0x" = '0' :: 'x' :: ([] : List Char)) ∧
    (([] : List Char).filter isLowerHexDigit = []) ∧
    format_dtc_code (.str "0x") = .ok "0x00" ∧
    (lowerStrip "0x0A" = '0' :: 'x' :: ['0', 'a']) ∧
    ((['0', 'a'] : List Char) ≠ []) ∧
    (∀ c ∈ (['0', 'a'] : List Char), isLowerHexDigit c = true) ∧
    format_dtc_code (.str "0x0A") = .ok ⟨'0' :: 'x' :: ['0', 'a']⟩ :=
  ⟨by decide, by decide,
   (c7_format_width.1 "0x1_2f" ['1', '_', '2', 'f'] (by decide)).1 (by decide),
   by decide, by decide,
   (c7_format_width.1 "0x" [] (by decide)).2 (by decide),
   by decide, by decide, by decide,
   c7_format_width.2.1 "0x0A" ['0', 'a'] (by decide) (by decide) (by decide)⟩

/-! ## Claim C8: the value round trip -/

/-- C8: decoding a formatted DTC code recovers the numeric value:
for every `n`, `_to_int (format_dtc_code n) = some n`. -/
theorem c8_roundtrip (n : Nat) :
    ∃ s, format_dtc_code (.int n) = .ok s ∧ _to_int (.str s) = .ok (some n) := by
  refine ⟨fmtCodeNum n, rfl, ?_⟩
  set w := if n ≤ 0xFFFFF then 5 else (natToHex n).length with hw
  have hmem := padZeros_natToHex_mem n w
  have hfix : ∀ c ∈ ('0' :: 'x' :: padZeros (natToHex n) w),
      isPySpace c = false ∧ pyToLower c = c ∧ c ≠ '_' := by
    intro c hc
    rcases List.mem_cons.mp hc with rfl | hc
    · exact ⟨by decide, by decide, by decide⟩
    rcases List.mem_cons.mp hc with rfl | hc
    · exact ⟨by decide, by decide, by decide⟩
    rcases hmem c hc with ⟨d, hd, rfl⟩
    exact ⟨(hexDigitChar_facts d hd).2.1, (hexDigitChar_facts d hd).2.2.1,
           (hexDigitChar_facts d hd).2.2.2.1⟩
  have hdata : (fmtCodeNum n).data = '0' :: 'x' :: padZeros (natToHex n) w := rfl
  have hls : lowerStrip (fmtCodeNum n) = '0' :: 'x' :: padZeros (natToHex n) w := by
    unfold lowerStrip
    rw [hdata, listStrip_eq_self _ (fun c hc => (hfix c hc).1),
        listLower_eq_self _ (fun c hc => (hfix c hc).2.1)]
  have hany : ('0' :: 'x' :: padZeros (natToHex n) w) ≠ "any".data := by
    intro h
    injection h with h1 _
    exact absurd h1 (by decide)
  have hpat : subsetBitPattern ('0' :: 'x' :: padZeros (natToHex n) w) = false := by
    simp [subsetBitPattern]
  have hund : dropUnderscores (padZeros (natToHex n) w) = padZeros (natToHex n) w := by
    unfold dropUnderscores
    refine List.filter_eq_self.mpr (fun c hc => ?_)
    have := (hfix c (List.mem_cons_of_mem _ (List.mem_cons_of_mem _ hc))).2.2
    simp [this]
  simp only [_to_int, STATUS_ANY]
  rw [hls, if_neg hany, hpat]
  simp [hund, pyIntHex_pad_natToHex]

/-! ## Claim C3: wildcard status matching -/

theorem zip_all_index (q : Char × Char → Bool) :
    ∀ (as bs : List Char), as.length = bs.length →
      (((as.zip bs).all q) = true ↔
        ∀ (i : Nat) (a b : Char), as[i]? = some a → bs[i]? = some b → q (a, b) = true) := by
  intro as
  induction as with
  | nil =>
    intro bs h
    constructor
    · intro _ i a b ha _
      simp at ha
    · intro _
      simp
  | cons a as ih =>
    intro bs h
    cases bs with
    | nil => simp at h
    | cons b bs =>
      simp only [List.zip_cons_cons, List.all_cons, Bool.and_eq_true]
      rw [ih bs (by simpa using h)]
      constructor
      · rintro ⟨hpab, hrest⟩ i x y hx hy
        cases i with
        | zero =>
          simp only [List.getElem?_cons_zero, Option.some.injEq] at hx hy
          rw [← hx, ← hy]
          exact hpab
        | succ i =>
          exact hrest i x y (by simpa using hx) (by simpa using hy)
      · intro hall
        refine ⟨hall 0 a b (by simp) (by simp), fun i x y hx hy => ?_⟩
        exact hall (i + 1) x y (by simpa using hx) (by simpa using hy)

theorem c3_counterexample : status_matches "0xd5" "11**01**" = true := by decide

theorem status_matches_wildcard_none (dut rule : String) (h1 : rule ≠ STATUS_ANY)
    (h2 : rule.data.contains '*' = true) (hp : pyIntHex dut.data = none) :
    status_matches dut rule = false := by
  unfold status_matches
  rw [if_neg h1, h2, if_pos rfl, hp]

theorem status_matches_wildcard_some (dut rule : String) (h1 : rule ≠ STATUS_ANY)
    (h2 : rule.data.contains '*' = true) (n : Nat) (hp : pyIntHex dut.data = some n) :
    status_matches dut rule =
      ((padZeros (natToBin n) (max rule.data.length (natToBin n).length)).zip
        (padZeros rule.data (max rule.data.length (natToBin n).length))).all
        (fun p => decide (p.2 = '*') || decide (p.1 = p.2)) := by
  unfold status_matches
  rw [if_neg h1, h2, if_pos rfl, hp]

/-- C3 (amended): wildcard matching parses the observed status as hex,
renders it binary, zero-pads both operands to the longer length and
compares position by position, a `*` matching either bit — so a `*`
position never forces a mismatch; the pattern `"11**01**"` matches
both `0b11010100` (`"0xd4"`) and `0b11010101` (`"0xd5"`), since its two
low positions are wildcards, and fails `0b01010100` (`"0x54"`). -/
theorem c3_wildcard_match :
    (∀ (dut_status rule_status : String), '*' ∈ rule_status.data →
      (status_matches dut_status rule_status = true ↔
        ∃ n, pyIntHex dut_status.data = some n ∧
          ∀ (i : Nat) (bc rc : Char),
            (padZeros (natToBin n)
              (max rule_status.data.length (natToBin n).length))[i]? = some bc →
            (padZeros rule_status.data
              (max rule_status.data.length (natToBin n).length))[i]? = some rc →
            (rc = '*' ∨ bc = rc))) ∧
    status_matches "0xd4" "11**01**" = true ∧
    status_matches "0xd5" "11**01**" = true ∧
    status_matches "0x54" "11**01**" = false := by
  refine ⟨?_, by decide, by decide, by decide⟩
  intro dut_status rule_status hstar
  have hne_any : rule_status ≠ STATUS_ANY := by
    intro h
    rw [h] at hstar
    exact absurd hstar (by decide)
  have hcont : rule_status.data.contains '*' = true := by
    exact List.elem_iff.mpr hstar
  cases hparse : pyIntHex dut_status.data with
  | none =>
    rw [status_matches_wildcard_none _ _ hne_any hcont hparse]
    simp only [Bool.false_eq_true, false_iff]
    rintro ⟨n, hn, _⟩
    exact absurd hn (by simp)
  | some n =>
    rw [status_matches_wildcard_some _ _ hne_any hcont n hparse]
    have hlen : (padZeros (natToBin n)
        (max rule_status.data.length (natToBin n).length)).length =
        (padZeros rule_status.data
          (max rule_status.data.length (natToBin n).length)).length := by
      rw [padZeros_length, padZeros_length]
      omega
    rw [zip_all_index _ _ _ hlen]
    constructor
    · intro hall
      refine ⟨n, rfl, fun i bc rc hbc hrc => ?_⟩
      have := hall i bc rc hbc hrc
      simpa using this
    · rintro ⟨n', hn', hall⟩
      have heq : n' = n := by
        injection hn' with h
        exact h.symm
      subst heq
      intro i a b ha hb
      have := hall i a b ha hb
      simpa using this

theorem c3_wildcard_match_witness :
    ('*' ∈ "11**01**".data) ∧
    (status_matches "0xd4" "11**01**" = true ↔
      ∃ n, pyIntHex "0xd4".data = some n ∧
        ∀ (i : Nat) (bc rc : Char),
          (padZeros (natToBin n)
            (max "11**01**".data.length (natToBin n).length))[i]? = some bc →
          (padZeros "11**01**".data
            (max "11**01**".data.length (natToBin n).length))[i]? = some rc →
          (rc = '*' ∨ bc = rc)) :=
  ⟨by decide, c3_wildcard_match.1 "0xd4" "11**01**" (by decide)⟩

/-! ## Claim C9: `"any"` and wildcard rule codes -/

theorem _to_int_any_code (s : String) (h : lowerStrip s = "any".data) :
    _to_int (.str s) = .ok none := by
  simp only [_to_int, STATUS_ANY]
  rw [h, if_pos rfl]

theorem _to_int_pattern_code (s : String) (h : subsetBitPattern (lowerStrip s) = true) :
    _to_int (.str s) = .ok none := by
  have hany : lowerStrip s ≠ "any".data := by
    intro he
    rw [he] at h
    exact absurd h (by decide)
  simp only [_to_int, STATUS_ANY]
  rw [if_neg hany, if_pos h]

theorem dtc_matches_code_of_none (d r : DTCInfo) (h : _to_int (.str r.DTC) = .ok none) :
    dtc_matches_code d r = false := by
  unfold dtc_matches_code
  rw [h]
  cases h1 : _to_int (.str d.DTC) with
  | error e => rfl
  | ok o => cases o with
    | none => rfl
    | some a => rfl

theorem subsetBitPattern_chars (cs : List Char) (h : subsetBitPattern cs = true) :
    ∀ c ∈ cs, c = '0' ∨ c = '1' ∨ c = '*' := by
  intro c hc
  have h2 := List.all_eq_true.mp h c hc
  simp only [Bool.or_eq_true, decide_eq_true_eq] at h2
  tauto

theorem format_dtc_code_pattern_error (s : String)
    (hpat : subsetBitPattern (lowerStrip s) = true) (hstar : '*' ∈ lowerStrip s) :
    format_dtc_code (.str s) = .error "invalid literal for int() with base 16" := by
  have hchars := subsetBitPattern_chars _ hpat
  have hany : lowerStrip s ≠ "any".data := by
    intro he
    rw [he] at hpat
    exact absurd hpat (by decide)
  have h0x : (lowerStrip s).take 2 ≠ (['0', 'x'] : List Char) := by
    intro h
    have hx : 'x' ∈ lowerStrip s := List.take_subset 2 _ (by rw [h]; decide)
    rcases hchars 'x' hx with h | h | h <;> exact absurd h (by decide)
  have h0b : (lowerStrip s).take 2 ≠ (['0', 'b'] : List Char) := by
    intro h
    have hb : 'b' ∈ lowerStrip s := List.take_subset 2 _ (by rw [h]; decide)
    rcases hchars 'b' hb with h | h | h <;> exact absurd h (by decide)
  have hstrip : listStrip (lowerStrip s) = lowerStrip s :=
    listStrip_eq_self _ (fun c hc => by
      rcases hchars c hc with h | h | h <;> (rw [h]; decide))
  have hnonempty : (lowerStrip s).isEmpty = false := by
    cases hl : lowerStrip s with
    | nil => rw [hl] at hstar; simp at hstar
    | cons c cs => rfl
  have hdec : pyIntDec (lowerStrip s) = none := by
    unfold pyIntDec
    rw [hstrip]
    simp only [hnonempty, Bool.false_eq_true, if_false]
    exact digitsValAux_none decDigitVal 10 _ ⟨'*', hstar, by decide⟩ 0
  have hdropx : drop0xHead (lowerStrip s) = lowerStrip s := by
    unfold drop0xHead
    rw [if_neg]
    rintro ⟨hlen, h0, hx⟩
    rcases hx with hx | hx <;>
      rcases hchars _ (List.getElem?_mem hx) with h | h | h <;>
        exact absurd h (by decide)
  have hhex : pyIntHex (lowerStrip s) = none := by
    unfold pyIntHex
    rw [hstrip, hdropx]
    simp only [hnonempty, Bool.false_eq_true, if_false]
    exact digitsValAux_none hexDigitVal 16 _ ⟨'*', hstar, by decide⟩ 0
  simp only [format_dtc_code, STATUS_ANY]
  rw [if_neg hany, if_neg h0x, if_neg h0b, hdec, hhex]

theorem exceptMapList_ok_mem {α β : Type} (f : α → Except String β) :
    ∀ (l : List α) (ys : List β), exceptMapList f l = .ok ys →
      ∀ x ∈ l, ∃ y, f x = .ok y := by
  intro l
  induction l with
  | nil =>
    intro ys _ x hx
    simp at hx
  | cons a l ih =>
    intro ys h x hx
    cases hfa : f a with
    | error e =>
      simp [exceptMapList, hfa, Bind.bind, Except.bind] at h
    | ok y =>
      cases hrest : exceptMapList f l with
      | error e =>
        simp [exceptMapList, hfa, hrest, Bind.bind, Except.bind] at h
      | ok ys' =>
        rcases List.mem_cons.mp hx with rfl | hx'
        · exact ⟨y, hfa⟩
        · exact ih ys' hrest x hx'

theorem c9_counterexample :
    dtc_matches_code (DTCInfo.make "0x101" "0x01") (DTCInfo.make "any" "any") = false ∧
    evaluate_dtc_block [DTCInfo.make "0x101" "0x01"] [DTCInfo.make "any" "any"] [] [] =
      .ok ⟨⟨"DTC Rule Summary", ["Type", "DTC", "Status"],
            [["Allowed", "any", "any"]], true⟩,
           ⟨"DTC Comprehensive Evaluation",
            ["DTC", "Status", "Present/Not present", "Type", "DTC+Status", "Result"],
            [["0x101", "0x01", "Present", "Unexpected", "", "fail"]], true⟩,
           "FAIL"⟩ := by
  constructor
  · decide
  · decide

/-- C9 (amended): a rule whose DTC code is a wildcard bit-pattern makes
evaluation fail with an error (raised while formatting the code for the
rule-summary table), and such codes are never coerced — but a rule code
`"any"` is not an error: `dtc_matches_code` silently treats it (and
wildcard codes) as never matching, without raising. -/
theorem c9_any_and_wildcard_codes :
    (∀ d r : DTCInfo, lowerStrip r.DTC = "any".data → dtc_matches_code d r = false) ∧
    (∀ d r : DTCInfo, subsetBitPattern (lowerStrip r.DTC) = true →
      dtc_matches_code d r = false) ∧
    (∀ s : String, subsetBitPattern (lowerStrip s) = true → '*' ∈ lowerStrip s →
      format_dtc_code (.str s) = .error "invalid literal for int() with base 16") ∧
    (∀ (dut A E M : List DTCInfo) (r : DTCInfo), r ∈ A →
      subsetBitPattern (lowerStrip r.DTC) = true → '*' ∈ lowerStrip r.DTC →
      ∃ msg, evaluate_dtc_block dut A E M = .error msg) := by
  refine ⟨fun d r h => dtc_matches_code_of_none d r (_to_int_any_code _ h),
    fun d r h => dtc_matches_code_of_none d r (_to_int_pattern_code _ h),
    fun s h1 h2 => format_dtc_code_pattern_error s h1 h2,
    fun dut A E M r hr h1 h2 => ?_⟩
  have hrow : summaryRow STATUS_ALLOWED r = .error "invalid literal for int() with base 16" := by
    unfold summaryRow
    rw [format_dtc_code_pattern_error r.DTC h1 h2]
    rfl
  cases hmap : exceptMapList (summaryRow STATUS_ALLOWED) A with
  | ok ys =>
    rcases exceptMapList_ok_mem _ A ys hmap r hr with ⟨y, hy⟩
    rw [hrow] at hy
    exact absurd hy (by simp)
  | error m =>
    refine ⟨m, ?_⟩
    unfold evaluate_dtc_block build_dtc_rule_summary_table
    rw [hmap]
    rfl

theorem c9_any_and_wildcard_codes_witness :
    (lowerStrip (DTCInfo.make "any" "any").DTC = "any".data) ∧
    dtc_matches_code (DTCInfo.make "0x202" "0x01") (DTCInfo.make "any" "any") = false :=
  ⟨by decide,
   c9_any_and_wildcard_codes.1 (DTCInfo.make "0x202" "0x01") (DTCInfo.make "any" "any")
     (by decide)⟩

/-! ## Structure of the scan loop -/

theorem dutScanStep_eq (d : DTCInfo) (A M E : List DTCInfo) (f : List Bool) :
    dutScanStep d A M E f =
      (dutRow d A M E).map (fun row => (row, foundUpdate E A M f d)) := by
  unfold dutScanStep dutRow foundUpdate scanExpectedHit
  cases h1 : format_dtc_code (.str d.DTC) with
  | error e => simp [Bind.bind, Except.bind, Except.map]
  | ok code =>
    cases h2 : parse_to_int_or_hex (.str d.status) with
    | error e => simp [Bind.bind, Except.bind, Except.map]
    | ok st =>
      cases h3 : scanRuleSets d
          [(STATUS_ALLOWED, A), (STATUS_MUTED, M), (STATUS_EXPECTED, E)] with
      | none => simp [Bind.bind, Except.bind, Except.map, h3]
      | some tr =>
        obtain ⟨tn, r⟩ := tr
        simp only [Bind.bind, Except.bind, h3]
        cases h4 : format_dtc_code (.str r.DTC) with
        | error e => simp [Except.map]
        | ok rc =>
          cases h5 : parse_to_int_or_hex (.str r.status) with
          | error e => simp [Except.map]
          | ok rs =>
            simp only [Except.map]
            by_cases h6 : tn = STATUS_EXPECTED
            · simp [h6]
            · simp [h6]

theorem dutRowsLoop_eq (A M E : List DTCInfo) :
    ∀ (duts : List DTCInfo) (f0 : List Bool),
      dutRowsLoop A M E duts f0 =
        (exceptMapList (fun d => dutRow d A M E) duts).map
          (fun rows => (rows, duts.foldl (foundUpdate E A M) f0)) := by
  intro duts
  induction duts with
  | nil => intro f0; rfl
  | cons d rest ih =>
    intro f0
    simp only [dutRowsLoop, dutScanStep_eq, exceptMapList, List.foldl_cons]
    cases h : dutRow d A M E with
    | error e => simp [Except.map, Bind.bind, Except.bind]
    | ok row =>
      simp only [Except.map, Bind.bind, Except.bind]
      rw [ih (foundUpdate E A M f0 d)]
      cases h2 : exceptMapList (fun d => dutRow d A M E) rest with
      | error e => simp [Except.map]
      | ok rows => simp [Except.map]

theorem exceptMapList_length_get {α β : Type} (f : α → Except String β) :
    ∀ (l : List α) (ys : List β), exceptMapList f l = .ok ys →
      ys.length = l.length ∧
      ∀ (i : Nat) (x : α), l[i]? = some x → ∃ y, f x = .ok y ∧ ys[i]? = some y := by
  intro l
  induction l with
  | nil =>
    intro ys h
    simp only [exceptMapList, Except.ok.injEq] at h
    subst h
    exact ⟨rfl, fun i x hx => by simp at hx⟩
  | cons a l ih =>
    intro ys h
    cases hfa : f a with
    | error e => simp [exceptMapList, hfa, Bind.bind, Except.bind] at h
    | ok y =>
      cases hrest : exceptMapList f l with
      | error e => simp [exceptMapList, hfa, hrest, Bind.bind, Except.bind] at h
      | ok ys' =>
        simp only [exceptMapList, hfa, hrest, Bind.bind, Except.bind,
          Except.ok.injEq] at h
        subst h
        rcases ih ys' hrest with ⟨hlen, hget⟩
        refine ⟨by simp [hlen], fun i x hx => ?_⟩
        cases i with
        | zero =>
          simp only [List.getElem?_cons_zero, Option.some.injEq] at hx
          subst hx
          exact ⟨y, hfa, by simp⟩
        | succ i =>
          simp only [List.getElem?_cons_succ] at hx ⊢
          exact hget i x hx

theorem foundUpdate_length (E A M : List DTCInfo) (f : List Bool) (d : DTCInfo)
    (h : f.length = E.length) : (foundUpdate E A M f d).length = E.length := by
  unfold foundUpdate markExpectedFound
  by_cases hh : scanExpectedHit d A M E = true
  · rw [if_pos hh, List.length_zipWith]
    omega
  · rw [if_neg hh]
    exact h

theorem markExpectedFound_get (d : DTCInfo) (E : List DTCInfo) (f : List Bool)
    (i : Nat) (b : Bool) (ex : DTCInfo)
    (hf : f[i]? = some b) (hE : E[i]? = some ex) :
    (markExpectedFound d E f)[i]? = some (b || dtc_matches_code d ex) := by
  unfold markExpectedFound
  rw [List.getElem?_zipWith, hf, hE]

theorem foldl_foundUpdate_length (E A M : List DTCInfo) :
    ∀ (duts : List DTCInfo) (f0 : List Bool), f0.length = E.length →
      (duts.foldl (foundUpdate E A M) f0).length = E.length := by
  intro duts
  induction duts with
  | nil => intro f0 h; exact h
  | cons d rest ih =>
    intro f0 h
    rw [List.foldl_cons]
    exact ih _ (foundUpdate_length E A M f0 d h)

theorem foldl_foundUpdate_get (E A M : List DTCInfo) :
    ∀ (duts : List DTCInfo) (f0 : List Bool) (i : Nat) (ex : DTCInfo) (b0 : Bool),
      E[i]? = some ex → f0[i]? = some b0 →
      ∃ b, (duts.foldl (foundUpdate E A M) f0)[i]? = some b ∧
        (b = true ↔ (b0 = true ∨ ∃ d ∈ duts, scanExpectedHit d A M E = true ∧
          dtc_matches_code d ex = true)) := by
  intro duts
  induction duts with
  | nil =>
    intro f0 i ex b0 hE hf
    exact ⟨b0, hf, by simp⟩
  | cons d rest ih =>
    intro f0 i ex b0 hE hf
    rw [List.foldl_cons]
    have hstep : (foundUpdate E A M f0 d)[i]? =
        some (if scanExpectedHit d A M E then b0 || dtc_matches_code d ex else b0) := by
      unfold foundUpdate
      by_cases hh : scanExpectedHit d A M E = true
      · rw [if_pos hh, if_pos hh]
        exact markExpectedFound_get d E f0 i b0 ex hf hE
      · rw [if_neg hh, if_neg hh]
        exact hf
    rcases ih (foundUpdate E A M f0 d) i ex _ hE hstep with ⟨b, hb, hiff⟩
    refine ⟨b, hb, ?_⟩
    rw [hiff]
    by_cases hh : scanExpectedHit d A M E = true
    · simp only [hh, if_true, Bool.or_eq_true, List.mem_cons]
      constructor
      · rintro (((hb0 | hm) | ⟨x, hx, hhit, hmx⟩))
        · exact Or.inl hb0
        · exact Or.inr ⟨d, Or.inl rfl, hh, hm⟩
        · exact Or.inr ⟨x, Or.inr hx, hhit, hmx⟩
      · rintro (hb0 | ⟨x, (rfl | hx), hhit, hmx⟩)
        · exact Or.inl (Or.inl hb0)
        · exact Or.inl (Or.inr hmx)
        · exact Or.inr ⟨x, hx, hhit, hmx⟩
    · simp only [hh, if_false, List.mem_cons]
      constructor
      · rintro (hb0 | ⟨x, hx, hhit, hmx⟩)
        · exact Or.inl hb0
        · exact Or.inr ⟨x, Or.inr hx, hhit, hmx⟩
      · rintro (hb0 | ⟨x, (rfl | hx), hhit, hmx⟩)
        · exact Or.inl hb0
        · exact absurd hhit hh
        · exact Or.inr ⟨x, hx, hhit, hmx⟩

theorem missingRowsLoop_spec :
    ∀ (pairs : List (DTCInfo × Bool)) (miss : List (List String)),
      missingRowsLoop pairs = .ok miss →
      (∀ row ∈ miss, ∃ c s,
        row = [c, s, "Not Present", STATUS_EXPECTED, c ++ "+" ++ s, "fail"]) ∧
      miss.length = (pairs.filter (fun p => !p.2)).length ∧
      (∀ ex : DTCInfo, (ex, false) ∈ pairs → ∃ c s,
        format_dtc_code (.str ex.DTC) = .ok c ∧
        parse_to_int_or_hex (.str ex.status) = .ok s ∧
        [c, s, "Not Present", STATUS_EXPECTED, c ++ "+" ++ s, "fail"] ∈ miss) := by
  intro pairs
  induction pairs with
  | nil =>
    intro miss h
    simp only [missingRowsLoop, Except.ok.injEq] at h
    subst h
    exact ⟨fun row hr => by simp at hr, rfl, fun ex hex => by simp at hex⟩
  | cons p rest ih =>
    intro miss h
    obtain ⟨ex0, f0⟩ := p
    cases f0 with
    | true =>
      simp only [missingRowsLoop, if_pos rfl] at h
      rcases ih miss h with ⟨h1, h2, h3⟩
      refine ⟨h1, by simpa using h2, fun ex hex => ?_⟩
      rcases List.mem_cons.mp hex with heq | hex'
      · injection heq with _ hf
        exact absurd hf.symm (by decide)
      · exact h3 ex hex'
    | false =>
      simp only [missingRowsLoop, Bool.false_eq_true, if_false] at h
      cases hc : format_dtc_code (.str ex0.DTC) with
      | error e => simp [hc, Bind.bind, Except.bind] at h
      | ok c =>
        cases hs : parse_to_int_or_hex (.str ex0.status) with
        | error e => simp [hc, hs, Bind.bind, Except.bind] at h
        | ok s =>
          cases hrest : missingRowsLoop rest with
          | error e => simp [hc, hs, hrest, Bind.bind, Except.bind] at h
          | ok tail =>
            simp only [hc, hs, hrest, Bind.bind, Except.bind, Except.ok.injEq] at h
            subst h
            rcases ih tail hrest with ⟨h1, h2, h3⟩
            refine ⟨?_, ?_, ?_⟩
            · intro row hr
              rcases List.mem_cons.mp hr with rfl | hr'
              · exact ⟨c, s, rfl⟩
              · exact h1 row hr'
            · simpa using h2
            · intro ex hex
              rcases List.mem_cons.mp hex with heq | hex'
              · injection heq with he _
                subst he
                exact ⟨c, s, hc, hs, List.mem_cons_self _ _⟩
              · rcases h3 ex hex' with ⟨c', s', hc', hs', hmem⟩
                exact ⟨c', s', hc', hs', List.mem_cons_of_mem _ hmem⟩

theorem zip_getElem?_of {α β : Type} (as : List α) (bs : List β) (i : Nat)
    (a : α) (b : β) (ha : as[i]? = some a) (hb : bs[i]? = some b) :
    (as.zip bs)[i]? = some (a, b) := by
  rw [List.zip, List.getElem?_zipWith, ha, hb]

theorem build_table_spec (duts A M E : List DTCInfo) (t : ReportTable)
    (ht : build_comprehensive_dtc_results_table duts A M E = .ok t) :
    ∃ rows miss,
      exceptMapList (fun d => dutRow d A M E) duts = .ok rows ∧
      missingRowsLoop
        (E.zip (duts.foldl (foundUpdate E A M) (List.replicate E.length false)))
        = .ok miss ∧
      t.data = rows ++ miss ∧ rows.length = duts.length := by
  unfold build_comprehensive_dtc_results_table at ht
  rw [dutRowsLoop_eq] at ht
  cases hmap : exceptMapList (fun d => dutRow d A M E) duts with
  | error e =>
    rw [hmap] at ht
    simp [Except.map, Bind.bind, Except.bind] at ht
  | ok rows =>
    rw [hmap] at ht
    simp only [Except.map, Bind.bind, Except.bind] at ht
    cases hmiss : missingRowsLoop
        (E.zip (duts.foldl (foundUpdate E A M) (List.replicate E.length false))) with
    | error e =>
      rw [hmiss] at ht
      simp at ht
    | ok miss =>
      rw [hmiss] at ht
      simp only [Except.ok.injEq] at ht
      refine ⟨rows, miss, rfl, rfl, ?_, (exceptMapList_length_get _ duts rows hmap).1⟩
      rw [← ht]

/-! ## Claim C1: category priority Allowed → Muted → Expected -/

theorem status_matches_any (ds : String) : status_matches ds STATUS_ANY = true := by
  unfold status_matches
  rw [if_pos rfl]

/-- For an Allowed-category match all three status branches collapse to
`"none"` iff `status_matches`. -/
theorem ruleResult_allowed (ds rs : String) :
    ruleResult STATUS_ALLOWED ds rs = if status_matches ds rs then "none" else "fail" := by
  unfold ruleResult
  by_cases hstar : rs.data.contains '*' = true
  · rw [if_pos hstar]
    by_cases hm : status_matches ds rs = true
    · rw [if_pos hm, if_pos hm, if_pos (Or.inl rfl)]
    · simp [hm]
  · rw [if_neg hstar]
    by_cases hany : rs = STATUS_ANY
    · subst hany
      rw [if_pos rfl, if_pos (status_matches_any ds),
          if_neg (by decide : ¬(STATUS_ALLOWED = STATUS_EXPECTED))]
    · rw [if_neg hany]
      by_cases hm : status_matches ds rs = true
      · rw [if_pos hm, if_pos hm, if_pos (Or.inl rfl)]
      · simp [hm]

/-- C1: rule categories are scanned in the fixed order Allowed, Muted,
Expected with first-match-wins; an observed DTC whose code matches an
Allowed rule gets its single scan row from the first matching Allowed
rule (result `none` exactly when that rule's status matches), and the
scan emits no Expected row for it — every `Present` row of the scan
part is one row per observed DTC, and all trailing rows are
`Not Present`. -/
theorem c1_category_priority (duts A M E : List DTCInfo) (t : ReportTable)
    (ht : build_comprehensive_dtc_results_table duts A M E = .ok t)
    (i : Nat) (d : DTCInfo) (hd : duts[i]? = some d)
    (a : DTCInfo) (ha : A.find? (fun r => dtc_matches_code d r) = some a) :
    scanRuleSets d [(STATUS_ALLOWED, A), (STATUS_MUTED, M), (STATUS_EXPECTED, E)]
      = some (STATUS_ALLOWED, a) ∧
    (∃ code st rc rs,
      format_dtc_code (.str d.DTC) = .ok code ∧
      parse_to_int_or_hex (.str d.status) = .ok st ∧
      format_dtc_code (.str a.DTC) = .ok rc ∧
      parse_to_int_or_hex (.str a.status) = .ok rs ∧
      t.data[i]? = some [code, st, "Present", STATUS_ALLOWED, rc ++ "+" ++ rs,
        if status_matches d.status a.status then "none" else "fail"]) ∧
    (∃ scanRows missRows, t.data = scanRows ++ missRows ∧
      scanRows.length = duts.length ∧
      ∀ row ∈ missRows, ∃ c s,
        row = [c, s, "Not Present", STATUS_EXPECTED, c ++ "+" ++ s, "fail"]) := by
  have hscan : scanRuleSets d [(STATUS_ALLOWED, A), (STATUS_MUTED, M), (STATUS_EXPECTED, E)]
      = some (STATUS_ALLOWED, a) := by
    unfold scanRuleSets
    rw [ha]
  obtain ⟨rows, miss, hmap, hmiss, hdata, hlen⟩ := build_table_spec duts A M E t ht
  obtain ⟨hlen2, hget⟩ := exceptMapList_length_get _ duts rows hmap
  obtain ⟨row, hrow, hri⟩ := hget i d hd
  have hilt : i < duts.length := by
    rcases List.getElem?_eq_some.mp hd with ⟨h, _⟩
    exact h
  refine ⟨hscan, ?_, rows, miss, hdata, hlen, (missingRowsLoop_spec _ miss hmiss).1⟩
  unfold dutRow at hrow
  rw [hscan] at hrow
  simp only [Bind.bind, Except.bind] at hrow
  cases h1 : format_dtc_code (.str d.DTC) with
  | error e => simp [h1] at hrow
  | ok code =>
    simp only [h1] at hrow
    cases h2 : parse_to_int_or_hex (.str d.status) with
    | error e => simp [h2] at hrow
    | ok st =>
      simp only [h2] at hrow
      cases h3 : format_dtc_code (.str a.DTC) with
      | error e => simp [h3] at hrow
      | ok rc =>
        simp only [h3] at hrow
        cases h4 : parse_to_int_or_hex (.str a.status) with
        | error e => simp [h4] at hrow
        | ok rs =>
          simp only [h4, Except.ok.injEq] at hrow
          refine ⟨code, st, rc, rs, rfl, rfl, rfl, rfl, ?_⟩
          rw [hdata, List.getElem?_append, if_pos (show i < rows.length by omega), hri,
              ← hrow, ruleResult_allowed]

theorem c1_category_priority_witness :
    (build_comprehensive_dtc_results_table
      [DTCInfo.make "0x101" "0x01"] [DTCInfo.make "0x101" "0x01"] []
      [DTCInfo.make "0x101" "any"] =
      .ok ⟨"DTC Comprehensive Evaluation",
           ["DTC", "Status", "Present/Not present", "Type", "DTC+Status", "Result"],
           [["0x101", "0x01", "Present", "Allowed", "0x101+0x01", "none"],
            ["0x101", "any", "Not Present", "Expected", "0x101+any", "fail"]], true⟩) ∧
    (([DTCInfo.make "0x101" "0x01"] : List DTCInfo)[0]? = some (DTCInfo.make "0x101" "0x01")) ∧
    ([DTCInfo.make "0x101" "0x01"].find?
      (fun r => dtc_matches_code (DTCInfo.make "0x101" "0x01") r) =
        some (DTCInfo.make "0x101" "0x01")) ∧
    scanRuleSets (DTCInfo.make "0x101" "0x01")
      [(STATUS_ALLOWED, [DTCInfo.make "0x101" "0x01"]), (STATUS_MUTED, []),
       (STATUS_EXPECTED, [DTCInfo.make "0x101" "any"])] =
      some (STATUS_ALLOWED, DTCInfo.make "0x101" "0x01") :=
  ⟨by decide, by decide, by decide,
   (c1_category_priority [DTCInfo.make "0x101" "0x01"] [DTCInfo.make "0x101" "0x01"] []
     [DTCInfo.make "0x101" "any"]
     ⟨"DTC Comprehensive Evaluation",
      ["DTC", "Status", "Present/Not present", "Type", "DTC+Status", "Result"],
      [["0x101", "0x01", "Present", "Allowed", "0x101+0x01", "none"],
       ["0x101", "any", "Not Present", "Expected", "0x101+any", "fail"]], true⟩
     (by decide) 0 (DTCInfo.make "0x101" "0x01") (by decide)
     (DTCInfo.make "0x101" "0x01") (by decide)).1⟩

/-! ## Claim C2: expected-but-absent DTC rows -/

theorem c2_counterexample :
    evaluate_dtc_block [] [] [DTCInfo.make "0x101" "any"] [] =
      .ok ⟨⟨"DTC Rule Summary", ["Type", "DTC", "Status"],
            [["Expected", "0x101", "any"]], true⟩,
           ⟨"DTC Comprehensive Evaluation",
            ["DTC", "Status", "Present/Not present", "Type", "DTC+Status", "Result"],
            [], true⟩,
           "PASS"⟩ ∧
    (([] : List (List String)) = []) := by
  constructor
  · decide
  · rfl

/-- C2 (amended): in `build_comprehensive_dtc_results_table` — which
`evaluate_dtc_block` reaches exactly when the observed list is
non-empty — every Expected rule not matched by any observed DTC whose
category scan reached the Expected rules yields exactly one trailing
row `[code, status, "Not Present", "Expected", code+status, "fail"]`,
regardless of the rule's status (Any, wildcard or exact); with an
empty observed list `evaluate_dtc_block` instead emits an empty table
and overall PASS, so no such rows appear. -/
theorem c2_missing_expected :
    (∀ (duts A M E : List DTCInfo) (t : ReportTable),
      build_comprehensive_dtc_results_table duts A M E = .ok t →
      ∃ rows miss,
        exceptMapList (fun d => dutRow d A M E) duts = .ok rows ∧
        missingRowsLoop
          (E.zip (duts.foldl (foundUpdate E A M) (List.replicate E.length false)))
          = .ok miss ∧
        t.data = rows ++ miss ∧
        rows.length = duts.length ∧
        (∀ row ∈ miss, ∃ c s,
          row = [c, s, "Not Present", STATUS_EXPECTED, c ++ "+" ++ s, "fail"]) ∧
        (∀ (i : Nat) (ex : DTCInfo) (b : Bool), E[i]? = some ex →
          (duts.foldl (foundUpdate E A M) (List.replicate E.length false))[i]? = some b →
          (b = true ↔ ∃ d ∈ duts, scanExpectedHit d A M E = true ∧
            dtc_matches_code d ex = true)) ∧
        (∀ (i : Nat) (ex : DTCInfo), E[i]? = some ex →
          ¬(∃ d ∈ duts, scanExpectedHit d A M E = true ∧ dtc_matches_code d ex = true) →
          ∃ c s, format_dtc_code (.str ex.DTC) = .ok c ∧
            parse_to_int_or_hex (.str ex.status) = .ok s ∧
            [c, s, "Not Present", STATUS_EXPECTED, c ++ "+" ++ s, "fail"] ∈ miss)) ∧
    (∀ (A E M : List DTCInfo) (out : EvalBlockOut),
      evaluate_dtc_block [] A E M = .ok out →
      out.table.data = [] ∧ out.step = "PASS") ∧
    (∀ (duts A E M : List DTCInfo) (out : EvalBlockOut), duts ≠ [] →
      evaluate_dtc_block duts A E M = .ok out →
      build_comprehensive_dtc_results_table duts A M E = .ok out.table) := by
  refine ⟨?_, ?_, ?_⟩
  · intro duts A M E t ht
    obtain ⟨rows, miss, hmap, hmiss, hdata, hlen⟩ := build_table_spec duts A M E t ht
    obtain ⟨hshape, hcount, hmem⟩ := missingRowsLoop_spec _ miss hmiss
    have hfound : ∀ (i : Nat) (ex : DTCInfo), E[i]? = some ex →
        ∃ b, (duts.foldl (foundUpdate E A M) (List.replicate E.length false))[i]? = some b ∧
          (b = true ↔ ∃ d ∈ duts, scanExpectedHit d A M E = true ∧
            dtc_matches_code d ex = true) := by
      intro i ex hE
      have hilt : i < E.length := by
        rcases List.getElem?_eq_some.mp hE with ⟨h, _⟩
        exact h
      have hf0 : (List.replicate E.length false)[i]? = some false := by
        simp [List.getElem?_replicate, hilt]
      rcases foldl_foundUpdate_get E A M duts (List.replicate E.length false) i ex false
        hE hf0 with ⟨b, hb, hiff⟩
      refine ⟨b, hb, ?_⟩
      rw [hiff]
      simp
    refine ⟨rows, miss, hmap, hmiss, hdata, hlen, hshape, ?_, ?_⟩
    · intro i ex b hE hb
      rcases hfound i ex hE with ⟨b', hb', hiff⟩
      rw [hb] at hb'
      injection hb' with hbe
      rw [hbe]
      exact hiff
    · intro i ex hE hnone
      rcases hfound i ex hE with ⟨b, hb, hiff⟩
      have hbf : b = false := by
        cases b with
        | true => exact absurd (hiff.mp rfl) hnone
        | false => rfl
      subst hbf
      have hzip : (E.zip (duts.foldl (foundUpdate E A M)
          (List.replicate E.length false)))[i]? = some (ex, false) :=
        zip_getElem?_of _ _ i ex false hE hb
      exact hmem ex (List.getElem?_mem hzip)
  · intro A E M out h
    unfold evaluate_dtc_block at h
    cases hs : build_dtc_rule_summary_table A E M with
    | error e => rw [hs] at h; simp [Bind.bind, Except.bind] at h
    | ok summary =>
      rw [hs] at h
      simp only [Bind.bind, Except.bind, List.isEmpty_nil, if_true,
        Except.ok.injEq] at h
      rw [← h]
      exact ⟨rfl, rfl⟩
  · intro duts A E M out hne h
    unfold evaluate_dtc_block at h
    cases hs : build_dtc_rule_summary_table A E M with
    | error e => rw [hs] at h; simp [Bind.bind, Except.bind] at h
    | ok summary =>
      rw [hs] at h
      have hie : duts.isEmpty = false := by
        cases duts with
        | nil => exact absurd rfl hne
        | cons x xs => rfl
      simp only [Bind.bind, Except.bind, hie, Bool.false_eq_true, if_false] at h
      cases hb : build_comprehensive_dtc_results_table duts A M E with
      | error e => rw [hb] at h; simp at h
      | ok table =>
        rw [hb] at h
        simp only [Except.ok.injEq] at h
        rw [← h]

theorem c2_missing_expected_witness :
    (evaluate_dtc_block [] [] [DTCInfo.make "0x101" "any"] [] =
      .ok ⟨⟨"DTC Rule Summary", ["Type", "DTC", "Status"],
            [["Expected", "0x101", "any"]], true⟩,
           ⟨"DTC Comprehensive Evaluation",
            ["DTC", "Status", "Present/Not present", "Type", "DTC+Status", "Result"],
            [], true⟩,
           "PASS"⟩) ∧
    ((⟨⟨"DTC Rule Summary", ["Type", "DTC", "Status"],
        [["Expected", "0x101", "any"]], true⟩,
       ⟨"DTC Comprehensive Evaluation",
        ["DTC", "Status", "Present/Not present", "Type", "DTC+Status", "Result"],
        [], true⟩,
       "PASS"⟩ : EvalBlockOut).table.data = [] ∧
     (⟨⟨"DTC Rule Summary", ["Type", "DTC", "Status"],
        [["Expected", "0x101", "any"]], true⟩,
       ⟨"DTC Comprehensive Evaluation",
        ["DTC", "Status", "Present/Not present", "Type", "DTC+Status", "Result"],
        [], true⟩,
       "PASS"⟩ : EvalBlockOut).step = "PASS") :=
  ⟨by decide,
   c2_missing_expected.2.1 [] [DTCInfo.make "0x101" "any"] []
     ⟨⟨"DTC Rule Summary", ["Type", "DTC", "Status"],
        [["Expected", "0x101", "any"]], true⟩,
       ⟨"DTC Comprehensive Evaluation",
        ["DTC", "Status", "Present/Not present", "Type", "DTC+Status", "Result"],
        [], true⟩,
       "PASS"⟩ (by decide)⟩

end DiagUtils
